import Mathlib

set_option maxHeartbeats 1000000
set_option maxRecDepth 8000

/-!
Shallow embedding of the AIX tensor core.

The definitions below are translated from src/Targets/AIXLib/aix.hpp (TensorValue,
TensorNode, Tensor, the generic CPU device kernels) and from
src/Targets/AIXLib/aixDeviceMetal.cpp (the accelerator dispatch and batching layer).

Modelling conventions:
- element values are rationals; all values exercised by the claims are exactly
  representable and their arithmetic is exact in both float and double;
- a raw buffer is a list of rationals; freshly allocated (uninitialized) buffers are
  modelled as zero-filled, which is the contents the shipped test suite relies on for
  gradient buffers;
- C++ exceptions become Except results at the TensorValue layer, and an
  (updated state, optional error) pair at the graph layer so that partially applied
  mutations survive a thrown exception, as they do in the C++ code;
- device pointers are collapsed to a numeric device id (the single default CPU device
  is id 0).
-/

namespace AIX

/-- DataType from aix.hpp: kFloat64 = 0, kFloat32 = 1. -/
inductive DataType where
  | kFloat64
  | kFloat32
deriving DecidableEq

/-- promoteDataType from aix.hpp: the 2x2 promotion table (F64 wins). -/
def promoteDataType : DataType → DataType → DataType
  | .kFloat64, _ => .kFloat64
  | .kFloat32, .kFloat64 => .kFloat64
  | .kFloat32, .kFloat32 => .kFloat32

/-- TensorValue::computeStrides: canonical C-contiguous strides, stride i is the
product of all later dimensions. -/
def computeStrides : List Nat → List Nat
  | [] => []
  | _ :: rest => rest.prod :: computeStrides rest

/-- Device::flattenIndex: sum over positions of index times stride. -/
def flattenIndex : List Nat → List Nat → Nat
  | [], _ => 0
  | _ :: _, [] => 0
  | i :: it, s :: st => i * s + flattenIndex it st

/-- Device::unflattenIndex: repeated division by the strides. -/
def unflattenIndex : Nat → List Nat → List Nat
  | _, [] => []
  | idx, s :: st => idx / s :: unflattenIndex (idx % s) st

/-- std::swap of two positions of an index vector (transposeGeneric). Both reads use
the original list, matching the temporary-variable swap. -/
def swapIdx (l : List Nat) (i j : Nat) : List Nat :=
  (l.set i (l.getD j 0)).set j (l.getD i 0)

/-- Loop body of Device::translationIndex. The first argument is the reversed new
shape (iterated fully), the second the reversed original shape (consumed only when a
dimension matches or is 1, exactly as the j cursor moves in the C++ loop). -/
def translationIndexGo : List Nat → List Nat → Nat → Nat → Nat → Nat → Nat
  | [], _, _, _, _, acc => acc
  | nd :: ns, js, index, tStride, oStride, acc =>
    let dimIndex := (index / tStride) % nd
    match js with
    | j :: jr =>
      if j = nd then
        translationIndexGo ns jr index (tStride * nd) (oStride * j) (acc + dimIndex * oStride)
      else if j = 1 then
        translationIndexGo ns jr index (tStride * nd) (oStride * j) acc
      else
        translationIndexGo ns (j :: jr) index (tStride * nd) oStride acc
    | [] => translationIndexGo ns [] index (tStride * nd) oStride acc

/-- Device::translationIndex: maps a linear index through (shape, newShape), walking
both shapes from the right. -/
def translationIndex (index : Nat) (shape newShape : List Nat) : Nat :=
  translationIndexGo newShape.reverse shape.reverse index 1 1 0

/-- Rational addition written through mkRat so that the kernel can evaluate it on
concrete inputs; proven equal to the field addition of the rationals below
(theorem qadd_eq). -/
def qadd (a b : ℚ) : ℚ := mkRat (a.num * b.den + b.num * a.den) (a.den * b.den)

/-- Rational subtraction through mkRat; equals field subtraction (qsub_eq). -/
def qsub (a b : ℚ) : ℚ := mkRat (a.num * b.den - b.num * a.den) (a.den * b.den)

/-- Rational multiplication through mkRat; equals field multiplication (qmul_eq). -/
def qmul (a b : ℚ) : ℚ := mkRat (a.num * b.num) (a.den * b.den)

/-- Rational negation through mkRat; equals field negation (qneg_eq). -/
def qneg (a : ℚ) : ℚ := mkRat (-a.num) a.den

/-- Rational division through divInt; equals field division (qdiv_eq), with the
division-by-zero convention of the rationals. -/
def qdiv (a b : ℚ) : ℚ := Rat.divInt (a.num * b.den) (a.den * b.num)

/-- Device::addGeneric: element-wise loop writing size results. -/
def addKernel (a b : List ℚ) (size : Nat) : List ℚ :=
  (List.range size).map fun i => qadd (a.getD i 0) (b.getD i 0)

/-- Device::subGeneric. -/
def subKernel (a b : List ℚ) (size : Nat) : List ℚ :=
  (List.range size).map fun i => qsub (a.getD i 0) (b.getD i 0)

/-- Device::mulGeneric. -/
def mulKernel (a b : List ℚ) (size : Nat) : List ℚ :=
  (List.range size).map fun i => qmul (a.getD i 0) (b.getD i 0)

/-- Device::divGeneric. -/
def divKernel (a b : List ℚ) (size : Nat) : List ℚ :=
  (List.range size).map fun i => qdiv (a.getD i 0) (b.getD i 0)

/-- Device::unaryGeneric (negation). -/
def negKernel (a : List ℚ) (size : Nat) : List ℚ :=
  (List.range size).map fun i => qneg (a.getD i 0)

/-- Device::copy / conversionCopyGeneric: dense copy of size elements; with exact
rational elements the dtype conversion is the identity on contents. -/
def copyKernel (src : List ℚ) (size : Nat) : List ℚ :=
  (List.range size).map fun i => src.getD i 0

/-- Device::broadcastToGeneric: gather following translationIndex. -/
def broadcastToKernel (src : List ℚ) (size : Nat) (shape newShape : List Nat) : List ℚ :=
  (List.range size).map fun idx => src.getD (translationIndex idx shape newShape) 0

/-- Device::reduceToGeneric: summing scatter into the destination buffer. -/
def reduceToKernel (src dst0 : List ℚ) (size : Nat) (shape newShape : List Nat) : List ℚ :=
  (List.range size).foldl (fun acc idx =>
    let t := translationIndex idx shape newShape
    acc.set t (qadd (acc.getD t 0) (src.getD idx 0))) dst0

/-- Device::transposeGeneric: scatter each source element to the index obtained by
unflattening with the source strides, swapping the two dimensions and flattening with
the result strides. -/
def transposeKernel (d0 d1 : Nat) (src : List ℚ) (strides newStrides : List Nat)
    (size : Nat) (dst0 : List ℚ) : List ℚ :=
  (List.range size).foldl (fun acc i =>
    acc.set (flattenIndex (swapIdx (unflattenIndex i strides) d0 d1) newStrides)
      (src.getD i 0)) dst0

/-- TensorValue from aix.hpp: dtype, flat data buffer, element count, shape, strides
and owning device. -/
structure TensorValue where
  dtype : DataType
  data : List ℚ
  size : Nat
  shape : List Nat
  strides : List Nat
  device : Nat
deriving DecidableEq

/-- TensorValue(data, size, srcDType, shape, device, dtype): allocate and
copyImmediate with conversion; strides are computed canonically. -/
def TensorValue.ofDataCopy (src : List ℚ) (size : Nat) (shape : List Nat)
    (device : Nat) (dtype : DataType) : TensorValue :=
  { dtype := dtype, data := copyKernel src size, size := size, shape := shape,
    strides := computeStrides shape, device := device }

/-- TensorValue(value, shape, device, dtype): size is the product of the shape and
the buffer is filled with the scalar. -/
def TensorValue.fillNew (value : ℚ) (shape : List Nat) (device : Nat)
    (dtype : DataType) : TensorValue :=
  { dtype := dtype, data := List.replicate shape.prod value, size := shape.prod,
    shape := shape, strides := computeStrides shape, device := device }

/-- TensorValue(shape, device, dtype): allocation without explicit initialization.
The C++ buffer contents are indeterminate here; the embedding models fresh
allocations as zero-filled (see the file header note). -/
def TensorValue.alloc (shape : List Nat) (device : Nat) (dtype : DataType) : TensorValue :=
  { dtype := dtype, data := List.replicate shape.prod 0, size := shape.prod,
    shape := shape, strides := computeStrides shape, device := device }

/-- TensorValue(shape, device, size, strides, dtype): allocation with the given size
and strides (used by the TensorNode grad member). -/
def TensorValue.allocWith (shape : List Nat) (device : Nat) (size : Nat)
    (strides : List Nat) (dtype : DataType) : TensorValue :=
  { dtype := dtype, data := List.replicate size 0, size := size, shape := shape,
    strides := strides, device := device }

/-- TensorValue::to(newDataType): identity when the dtype already matches, otherwise
a conversion copy. -/
def TensorValue.to (t : TensorValue) (newDataType : DataType) : TensorValue :=
  if t.dtype ≠ newDataType then
    TensorValue.ofDataCopy t.data t.size t.shape t.device newDataType
  else t

/-- Loop body of TensorValue::checkBroadcastTo on reversed shapes: the target is
iterated fully; an exhausted source contributes dimension 1. -/
def checkBroadcastToGo : List Nat → List Nat → Bool
  | _, [] => true
  | [], t :: ts => ((1 : Nat) == t || (1 : Nat) == 1) && checkBroadcastToGo [] ts
  | s :: ss, t :: ts => (s == t || s == 1) && checkBroadcastToGo ss ts

/-- TensorValue::checkBroadcastTo: a source of larger rank is rejected outright. -/
def checkBroadcastTo (sourceShape targetShape : List Nat) : Bool :=
  if sourceShape.length > targetShape.length then false
  else checkBroadcastToGo sourceShape.reverse targetShape.reverse

/-- Loop body of TensorValue::broadcastShapes on reversed shapes. An exhausted side
contributes dimension 1, which can never trigger the incompatibility error, so the
remaining dimensions of the other side are emitted directly (each maxed with 1). -/
def broadcastShapesGo : List Nat → List Nat → Except String (List Nat)
  | l1, [] => .ok (l1.map fun d => max d 1)
  | [], d2 :: t2 => .ok ((d2 :: t2).map fun d => max 1 d)
  | d1 :: t1, d2 :: t2 =>
    if d1 ≠ d2 ∧ d1 ≠ 1 ∧ d2 ≠ 1 then
      .error "Shapes are not compatible for broadcasting."
    else do
      let r ← broadcastShapesGo t1 t2
      .ok (max d1 d2 :: r)

/-- TensorValue::broadcastShapes: right-aligned elementwise max, throwing when a pair
differs with neither side 1. -/
def broadcastShapes (shape1 shape2 : List Nat) : Except String (List Nat) := do
  let r ← broadcastShapesGo shape1.reverse shape2.reverse
  .ok r.reverse

/-- TensorValue::broadcastTo: validate with checkBroadcastTo, then materialize a
fresh contiguous tensor of the broadcastShapes result via the gather kernel. -/
def TensorValue.broadcastTo (t : TensorValue) (newShape : List Nat) :
    Except String TensorValue :=
  if ¬ checkBroadcastTo t.shape newShape then
    .error "Target TensorValue shape is not broadcastable."
  else do
    let resultShape ← broadcastShapes t.shape newShape
    let result := TensorValue.alloc resultShape t.device t.dtype
    .ok { result with data := broadcastToKernel t.data result.size t.shape resultShape }

/-- TensorValue::reduceTo: zero-initialized result, then the summing scatter. -/
def TensorValue.reduceTo (t : TensorValue) (originalShape : List Nat) : TensorValue :=
  let result := TensorValue.fillNew 0 originalShape t.device t.dtype
  { result with data := reduceToKernel t.data result.data t.size t.shape originalShape }

/-- TensorValue::reshape: element counts must match; the result is built by the
data-copying constructor with the new shape. -/
def TensorValue.reshape (t : TensorValue) (newShape : List Nat) :
    Except String TensorValue :=
  if t.size ≠ newShape.prod then
    .error "Reshape error: element count mismatch."
  else
    .ok (TensorValue.ofDataCopy t.data t.size newShape t.device t.dtype)

/-- TensorValue::transpose: dimension bounds check, swapped shape, fresh contiguous
result written by the transpose scatter kernel. -/
def TensorValue.transpose (t : TensorValue) (d0 d1 : Nat) : Except String TensorValue :=
  if d0 ≥ t.shape.length ∨ d1 ≥ t.shape.length then
    .error "Invalid dimensions for transpose."
  else
    let newShape := swapIdx t.shape d0 d1
    let result := TensorValue.alloc newShape t.device t.dtype
    .ok { result with
          data := transposeKernel d0 d1 t.data t.strides result.strides result.size result.data }

/-- TensorValue::prepareTensors: promote dtypes when they differ, broadcast both
sides when the shapes differ, and allocate the result tensor. -/
def prepareTensors (lhs rhs : TensorValue) :
    Except String (TensorValue × TensorValue × TensorValue) := do
  let promoted := if lhs.dtype ≠ rhs.dtype then promoteDataType lhs.dtype rhs.dtype else lhs.dtype
  let l1 := if lhs.dtype ≠ rhs.dtype then lhs.to promoted else lhs
  let r1 := if lhs.dtype ≠ rhs.dtype then rhs.to promoted else rhs
  if l1.shape ≠ r1.shape then do
    let bc ← broadcastShapes l1.shape r1.shape
    let l2 ← l1.broadcastTo bc
    let r2 ← r1.broadcastTo bc
    .ok (l2, r2, TensorValue.alloc l2.shape l2.device promoted)
  else
    .ok (l1, r1, TensorValue.alloc l1.shape l1.device promoted)

/-- Shared shape of the four TensorValue binary operators: slow path through
prepareTensors when shapes or dtypes differ, fast path otherwise. -/
def TensorValue.binOp (kernel : List ℚ → List ℚ → Nat → List ℚ) (a b : TensorValue) :
    Except String TensorValue :=
  if a.shape ≠ b.shape ∨ a.dtype ≠ b.dtype then do
    let (l, r, res) ← prepareTensors a b
    .ok { res with data := kernel l.data r.data l.size }
  else
    let res := TensorValue.alloc a.shape a.device a.dtype
    .ok { res with data := kernel a.data b.data a.size }

/-- TensorValue::operator+. -/
def TensorValue.add (a b : TensorValue) : Except String TensorValue :=
  TensorValue.binOp addKernel a b

/-- TensorValue::operator- (binary). -/
def TensorValue.sub (a b : TensorValue) : Except String TensorValue :=
  TensorValue.binOp subKernel a b

/-- TensorValue::operator*. -/
def TensorValue.mul (a b : TensorValue) : Except String TensorValue :=
  TensorValue.binOp mulKernel a b

/-- TensorValue::operator/. -/
def TensorValue.div (a b : TensorValue) : Except String TensorValue :=
  TensorValue.binOp divKernel a b

/-- TensorValue::operator+=: in place on the fast path; on the promote/broadcast path
the written broadcast buffer is reassigned through the data-copying constructor with
the original dtype of the left side. A thrown broadcast error leaves the left side
untouched. -/
def TensorValue.addAssign (a b : TensorValue) : Except String TensorValue :=
  if a.shape ≠ b.shape ∨ a.dtype ≠ b.dtype then do
    let (l, r, _res) ← prepareTensors a b
    let written := addKernel l.data r.data l.size
    .ok (TensorValue.ofDataCopy written l.size l.shape l.device a.dtype)
  else
    .ok { a with data := addKernel a.data b.data a.size }

/-- TensorValue::operator- (unary negation). -/
def TensorValue.neg (a : TensorValue) : TensorValue :=
  let res := TensorValue.alloc a.shape a.device a.dtype
  { res with data := negKernel a.data a.size }

/-- Tag for the per-op backward closure stored in m_backwardFunc. -/
inductive BackwardKind where
  | defaultB
  | broadcastB
  | toB
  | addB
  | subB
  | mulB
  | divB
  | transposeB
deriving DecidableEq

/-- TensorNode from aix.hpp: forward value, gradient buffer, flags, up to two parent
references (node ids), the dim parameters used by transpose and the backward tag. -/
structure TensorNode where
  value : TensorValue
  grad : TensorValue
  requireGrad : Bool
  retainGrad : Bool
  a : Option Nat
  b : Option Nat
  dim0 : Nat
  dim1 : Nat
  bwd : BackwardKind
deriving DecidableEq

/-- TensorNode(value, requireGrad): the grad buffer is allocated with the shape,
device, size, strides and dtype of the value, contents indeterminate. -/
def TensorNode.ofValue (v : TensorValue) (requireGrad : Bool) : TensorNode :=
  { value := v,
    grad := TensorValue.allocWith v.shape v.device v.size v.strides v.dtype,
    requireGrad := requireGrad, retainGrad := false,
    a := none, b := none, dim0 := 0, dim1 := 0, bwd := .defaultB }

/-- TensorNode(shape, device, requireGrad, dtype). -/
def TensorNode.ofShape (shape : List Nat) (device : Nat) (requireGrad : Bool)
    (dtype : DataType) : TensorNode :=
  TensorNode.ofValue (TensorValue.alloc shape device dtype) requireGrad

/-- The shared-ownership node store: node ids are indices into this list, and every
Tensor handle is a node id. -/
structure Graph where
  nodes : List TensorNode
deriving DecidableEq

/-- Dereference a node id. -/
def Graph.get (g : Graph) (id : Nat) : TensorNode :=
  g.nodes.getD id (TensorNode.ofValue (TensorValue.alloc [] 0 .kFloat32) false)

/-- Allocate a new shared node, returning its id. -/
def Graph.push (g : Graph) (n : TensorNode) : Graph × Nat :=
  ({ nodes := g.nodes ++ [n] }, g.nodes.length)

/-- Overwrite the node stored at an id (mutation through a shared pointer). -/
def Graph.setNode (g : Graph) (id : Nat) (n : TensorNode) : Graph :=
  { nodes := g.nodes.set id n }

/-- Accumulate m_grad += seed into the node. When the += throws (incompatible
broadcast), the exception propagates before the write-back, so the grad is left
untouched, as in the C++ code. -/
def Graph.accumGrad (g : Graph) (id : Nat) (seed : TensorValue) : Graph × Option String :=
  match (g.get id).grad.addAssign seed with
  | .ok newGrad => (g.setNode id { g.get id with grad := newGrad }, none)
  | .error e => (g, some e)

/-- Sequence graph-mutating steps, stopping at the first error while keeping the
mutations already performed (C++ exception semantics over shared nodes). -/
def andThenB (r : Graph × Option String) (f : Graph → Graph × Option String) :
    Graph × Option String :=
  match r with
  | (g, none) => f g
  | (g, some e) => (g, some e)

/-- Lift a TensorValue-level Except into a graph step. -/
def withVal (g : Graph) (v : Except String TensorValue)
    (f : Graph → TensorValue → Graph × Option String) : Graph × Option String :=
  match v with
  | .ok tv => f g tv
  | .error e => (g, some e)

/-- TensorNode::backward plus the per-op backward closures of Tensor. The retain-grad
accumulation happens before the closure runs; the default closure accumulates only
when requireGrad is set without retainGrad; binary closures visit parent a first,
recomputing the second local gradient afterwards, exactly as the source does. The
fuel argument bounds the recursion depth (parents always have smaller ids, so any
fuel of at least the node count suffices). -/
def backwardNode : Nat → Graph → Nat → TensorValue → Graph × Option String
  | 0, g, _, _ => (g, some "backward recursion fuel exhausted")
  | fuel + 1, g, id, seed =>
    let n := g.get id
    andThenB (if n.retainGrad then g.accumGrad id seed else (g, none)) fun g =>
      match n.bwd with
      | .defaultB =>
        if n.requireGrad && !n.retainGrad then g.accumGrad id seed else (g, none)
      | .broadcastB =>
        match n.a with
        | none => (g, none)
        | some ia => backwardNode fuel g ia (seed.reduceTo ((g.get ia).value.shape))
      | .toB =>
        match n.a with
        | none => (g, none)
        | some ia => backwardNode fuel g ia (seed.to ((g.get ia).value.dtype))
      | .addB =>
        match n.a, n.b with
        | some ia, some ib =>
          andThenB (backwardNode fuel g ia seed) fun g => backwardNode fuel g ib seed
        | _, _ => (g, none)
      | .subB =>
        match n.a, n.b with
        | some ia, some ib =>
          andThenB (backwardNode fuel g ia seed) fun g => backwardNode fuel g ib seed.neg
        | _, _ => (g, none)
      | .mulB =>
        match n.a, n.b with
        | some ia, some ib =>
          withVal g ((g.get ib).value.mul seed) fun g sa =>
            andThenB (backwardNode fuel g ia sa) fun g =>
              withVal g ((g.get ia).value.mul seed) fun g sb =>
                backwardNode fuel g ib sb
        | _, _ => (g, none)
      | .divB =>
        match n.a, n.b with
        | some ia, some ib =>
          withVal g (seed.div ((g.get ib).value)) fun g sa =>
            andThenB (backwardNode fuel g ia sa) fun g =>
              withVal g (((g.get ia).value.neg).mul seed) fun g t1 =>
                withVal g (((g.get ib).value).mul ((g.get ib).value)) fun g bb =>
                  withVal g (t1.div bb) fun g sb =>
                    backwardNode fuel g ib sb
        | _, _ => (g, none)
      | .transposeB =>
        match n.a with
        | none => (g, none)
        | some ia =>
          withVal g (seed.transpose n.dim0 n.dim1) fun g s2 =>
            backwardNode fuel g ia s2

/-- aix::tensor(data, shape, requireGrad): a leaf tensor over the default device in
F32, with the default backward rule and no parents. -/
def Tensor.fromData (g : Graph) (src : List ℚ) (shape : List Nat) (requireGrad : Bool) :
    Graph × Nat :=
  g.push (TensorNode.ofValue
    (TensorValue.ofDataCopy src src.length shape 0 .kFloat32) requireGrad)

/-- Tensor::broadcastTo: materializes the broadcast value, wraps it in a new node
whose parent is the original node, with the broadcast backward rule. -/
def Tensor.broadcastToOp (g : Graph) (id : Nat) (newShape : List Nat) :
    Except String (Graph × Nat) := do
  let t := g.get id
  let tv ← t.value.broadcastTo newShape
  let node := TensorNode.ofValue
    (TensorValue.ofDataCopy tv.data tv.size tv.shape t.value.device t.value.dtype)
    t.requireGrad
  .ok (g.push { node with a := some id, bwd := .broadcastB })

/-- Tensor::to(newDataType): identity when the dtype matches, otherwise a conversion
node with the to backward rule. -/
def Tensor.toOp (g : Graph) (id : Nat) (newDType : DataType) : Graph × Nat :=
  let t := g.get id
  if t.value.dtype ≠ newDType then
    let node := TensorNode.ofValue
      (TensorValue.ofDataCopy t.value.data t.value.size t.value.shape t.value.device newDType)
      t.requireGrad
    g.push { node with a := some id, bwd := .toB }
  else (g, id)

/-- Tensor::broadcastShape: skip the computation when the shapes already agree. -/
def Tensor.broadcastShape (g : Graph) (id : Nat) (otherShape : List Nat) :
    Except String (List Nat) :=
  if (g.get id).value.shape = otherShape then .ok ((g.get id).value.shape)
  else broadcastShapes ((g.get id).value.shape) otherShape

/-- Tensor::operator*: promote and broadcast both operands through fresh broadcast
and conversion nodes, then record the result node. Faithful to the source, the
result node is constructed with the shape and dtype of the LEFT operand (so its
preallocated grad keeps them) and only its value is replaced by the product. -/
def Tensor.mulOp (g : Graph) (ix iy : Nat) : Except String (Graph × Nat) := do
  let promoted := promoteDataType ((g.get ix).value.dtype) ((g.get iy).value.dtype)
  let bcShape ← Tensor.broadcastShape g ix ((g.get iy).value.shape)
  let reqx := (g.get ix).requireGrad
  let reqy := (g.get iy).requireGrad
  let xShape := (g.get ix).value.shape
  let xDType := (g.get ix).value.dtype
  let (g1, lx0) ← Tensor.broadcastToOp g ix bcShape
  let (g2, lx) := Tensor.toOp g1 lx0 promoted
  let (g3, ly0) ← Tensor.broadcastToOp g2 iy bcShape
  let (g4, ly) := Tensor.toOp g3 ly0 promoted
  let v ← ((g4.get lx).value).mul ((g4.get ly).value)
  let base := TensorNode.ofShape xShape 0 (reqx || reqy) xDType
  .ok (g4.push { base with value := v, a := some lx, b := some ly, bwd := .mulB })

/-- Tensor::operator+: identical construction to operator* with the add value and
backward rule (the result node again keeps the left operand shape and dtype). -/
def Tensor.addOp (g : Graph) (ix iy : Nat) : Except String (Graph × Nat) := do
  let promoted := promoteDataType ((g.get ix).value.dtype) ((g.get iy).value.dtype)
  let bcShape ← Tensor.broadcastShape g ix ((g.get iy).value.shape)
  let reqx := (g.get ix).requireGrad
  let reqy := (g.get iy).requireGrad
  let xShape := (g.get ix).value.shape
  let xDType := (g.get ix).value.dtype
  let (g1, lx0) ← Tensor.broadcastToOp g ix bcShape
  let (g2, lx) := Tensor.toOp g1 lx0 promoted
  let (g3, ly0) ← Tensor.broadcastToOp g2 iy bcShape
  let (g4, ly) := Tensor.toOp g3 ly0 promoted
  let v ← ((g4.get lx).value).add ((g4.get ly).value)
  let base := TensorNode.ofShape xShape 0 (reqx || reqy) xDType
  .ok (g4.push { base with value := v, a := some lx, b := some ly, bwd := .addB })

/-- Tensor::transpose: the result node is built with the ORIGINAL shape (so its grad
keeps it) and only the value is replaced by the transposed TensorValue. -/
def Tensor.transposeOp (g : Graph) (id : Nat) (d0 d1 : Nat) :
    Except String (Graph × Nat) := do
  let t := g.get id
  let base := TensorNode.ofShape t.value.shape 0 t.requireGrad t.value.dtype
  let v ← t.value.transpose d0 d1
  let node := { base with value := v, a := some id, dim0 := d0, dim1 := d1, bwd := .transposeB }
  .ok (g.push node)

/-- Tensor::reshape: same element-count check as TensorValue::reshape; the result is
a fresh leaf tensor built from the raw value data, with no parent link. -/
def Tensor.reshapeOp (g : Graph) (id : Nat) (newShape : List Nat) :
    Except String (Graph × Nat) :=
  let t := g.get id
  if t.value.size ≠ newShape.prod then
    .error "Reshape error: element count mismatch."
  else
    .ok (g.push (TensorNode.ofValue
      (TensorValue.ofDataCopy t.value.data t.value.size newShape t.value.device t.value.dtype)
      t.requireGrad))

/-- Tensor::grad: throws unless requireGrad or retainGrad is set on the node. -/
def Tensor.grad (g : Graph) (id : Nat) : Except String TensorValue :=
  if !(g.get id).requireGrad && !(g.get id).retainGrad then
    .error "Gradients for non-leaf tensors will not be populated during automatic gradient calculation."
  else .ok ((g.get id).grad)

/-- Tensor::backward(value = 1): the seed shape is read from m_a->m_grad; on a
parentless node this dereferences a null pointer, modelled as an error outcome. -/
def Tensor.backwardVal (g : Graph) (id : Nat) (value : ℚ) : Graph × Option String :=
  match (g.get id).a with
  | none => (g, some "null parent dereference in Tensor::backward")
  | some pa =>
    backwardNode (g.nodes.length + 1) g id
      (TensorValue.fillNew value ((g.get pa).grad.shape) 0 ((g.get id).value.dtype))

/-- Tensor::backward(value, gradShape): explicit seed shape. -/
def Tensor.backwardShaped (g : Graph) (id : Nat) (value : ℚ) (gradShape : List Nat) :
    Graph × Option String :=
  backwardNode (g.nodes.length + 1) g id
    (TensorValue.fillNew value gradShape 0 ((g.get id).value.dtype))

/-! Model of the accelerator backend (src/Targets/AIXLib/aixDeviceMetal.cpp):
the kernel-pipeline table built in the constructor, the dtype control flow of every
public op, and the command-batching state machine. -/

/-- The dtype universe of the accelerator build, in the index order of the
DeviceMetal::toString table (f64, f32, f16, bf16, i64, i32, i16, i8, ui8). -/
inductive MetalDataType where
  | f64
  | f32
  | f16
  | bf16
  | i64
  | i32
  | i16
  | i8
  | ui8
deriving DecidableEq

/-- DeviceMetal::toString dtype suffix table. -/
def metalDTypeStr : MetalDataType → String
  | .f64 => "f64"
  | .f32 => "f32"
  | .f16 => "f16"
  | .bf16 => "bf16"
  | .i64 => "i64"
  | .i32 => "i32"
  | .i16 => "i16"
  | .i8 => "i8"
  | .ui8 => "ui8"

/-- The single-dtype pipeline families resolved in the DeviceMetal constructor. -/
inductive MetalOp where
  | add
  | sub
  | mul
  | div
  | unary
  | fillMin
  | sqrtOp
  | sinOp
  | cosOp
  | tanhOp
  | logOp
  | expOp
  | powOp
  | sumOp
  | maxOp
  | matMulTiledBC6464888
  | matMulTiled32x32
  | matMulTiled32x64
  | matMulTiled32x128
  | transpose2D
  | transpose2DTiled16x16x8
  | transpose2DTiled32x32x8
  | transposeOp
  | contiguous
  | reduceToOp
  | maxTo
  | sliceSet
  | tril
  | triu
  | indexSelect
  | indexAdd
deriving DecidableEq

/-- Kernel-name stem of each single-dtype pipeline family. -/
def metalOpKernelStem : MetalOp → String
  | .add => "add"
  | .sub => "sub"
  | .mul => "mul"
  | .div => "div"
  | .unary => "unary"
  | .fillMin => "fillMin"
  | .sqrtOp => "sqrt"
  | .sinOp => "sin"
  | .cosOp => "cos"
  | .tanhOp => "tanh"
  | .logOp => "log"
  | .expOp => "exp"
  | .powOp => "pow"
  | .sumOp => "sum"
  | .maxOp => "max"
  | .matMulTiledBC6464888 => "matrixMulTiledBC_64_64_8_8_8"
  | .matMulTiled32x32 => "matrixMulTiled_32_32"
  | .matMulTiled32x64 => "matrixMulTiled_32_64"
  | .matMulTiled32x128 => "matrixMulTiled_32_128"
  | .transpose2D => "transpose2D"
  | .transpose2DTiled16x16x8 => "transpose2DTiled_16_16_8"
  | .transpose2DTiled32x32x8 => "transpose2DTiled_32_32_8"
  | .transposeOp => "transpose"
  | .contiguous => "contiguous"
  | .reduceToOp => "reduceTo"
  | .maxTo => "maxTo"
  | .sliceSet => "sliceSet"
  | .tril => "tril"
  | .triu => "triu"
  | .indexSelect => "indexSelect"
  | .indexAdd => "indexAdd"

/-- Constructor loop of DeviceMetal: the pipeline bound for (family, dtype).
Metal does not support kFloat64, so those entries get the null-kernel stub. -/
def metalKernelTable (op : MetalOp) (d : MetalDataType) : String :=
  if d = .f64 then "nullKernel"
  else metalOpKernelStem op ++ "_" ++ metalDTypeStr d

/-- Constructor loop of DeviceMetal for the dtype-pair copy table: null when either
side is kFloat64. -/
def metalCopyKernelTable (i j : MetalDataType) : String :=
  if i = .f64 ∨ j = .f64 then "nullKernel"
  else "copy_" ++ metalDTypeStr i ++ "_" ++ metalDTypeStr j

/-- Constructor loop of DeviceMetal for the dtype-pair fill table: null when either
side is kFloat64. -/
def metalFillKernelTable (i j : MetalDataType) : String :=
  if i = .f64 ∨ j = .f64 then "nullKernel"
  else "fill_" ++ metalDTypeStr i ++ "_" ++ metalDTypeStr j

/-- The public op methods of DeviceMetal. -/
inductive MetalDeviceOp where
  | add
  | sub
  | mul
  | div
  | unary
  | fill
  | fillMin
  | sumOp
  | sqrtOp
  | sinOp
  | cosOp
  | tanhOp
  | logOp
  | expOp
  | powOp
  | maxOp
  | argmax
  | argmaxIndices
  | matmulOp
  | transposeOp
  | copy
  | copyImmediate
  | contiguous
  | reduceToOp
  | maxTo
  | argmaxTo
  | argmaxIndicesTo
  | sliceSet
  | tril
  | triu
  | indexSelect
  | indexAdd
deriving DecidableEq

/-- Outcome of invoking a DeviceMetal op before any kernel is dispatched. -/
inductive MetalAction where
  | reject
  | fallbackCPU
  | dispatch
deriving DecidableEq

/-- DeviceMetal::validateDataType: throws exactly on kFloat64. -/
def metalValidateFails (d : MetalDataType) : Bool := d == .f64

/-- Dtype control flow of each DeviceMetal op, invoked with every tensor argument of
dtype d (the uniform-dtype invocation the TensorValue layer produces; argmax-family
results are kInt32 by their own contract).
- add/sub/mul/div/pow go through executeTripleArrayCmd, which validates the result
  dtype before encoding;
- unary and the unary transcendentals go through executeDoubleArrayCmd, same check;
- fill validates the scalar and result dtypes; fillMin, matmul, transpose (both the
  2-D fast path and the general path), contiguous, sliceSet, tril, triu and
  indexSelect validate before encoding;
- sum and max reach their first kernel through copy(), which validates both dtypes;
- copy and copyImmediate validate both dtypes;
- reduceTo, maxTo and indexAdd validate first, then fall back to the CPU
  implementation (after a synchronize) for dtypes without Metal atomics;
- argmax and argmaxIndices always synchronize and run the CPU implementation;
  argmaxTo and argmaxIndicesTo validate first, then do the same. -/
def metalDeviceOpAction (op : MetalDeviceOp) (d : MetalDataType) : MetalAction :=
  match op with
  | .add | .sub | .mul | .div | .powOp =>
    if metalValidateFails d then .reject else .dispatch
  | .unary | .sqrtOp | .sinOp | .cosOp | .tanhOp | .logOp | .expOp =>
    if metalValidateFails d then .reject else .dispatch
  | .fill | .fillMin | .matmulOp | .transposeOp | .contiguous | .sliceSet
  | .tril | .triu | .indexSelect =>
    if metalValidateFails d then .reject else .dispatch
  | .sumOp | .maxOp | .copy | .copyImmediate =>
    if metalValidateFails d then .reject else .dispatch
  | .reduceToOp | .maxTo | .indexAdd =>
    if metalValidateFails d then .reject
    else if d = .f32 ∨ d = .i32 then .dispatch else .fallbackCPU
  | .argmax | .argmaxIndices => .fallbackCPU
  | .argmaxTo | .argmaxIndicesTo =>
    if metalValidateFails d then .reject else .fallbackCPU

/-- Batch-queue state of DeviceMetal: the dispatch counter of the current batch
(m_currentBatchSize), the number of committed but not yet completed command buffers,
and whether a committed buffer handle exists (m_committedCmdBuffer non-null). -/
structure MetalQueueState where
  batchSize : Nat
  inFlight : Nat
  hasCommitted : Bool
deriving DecidableEq

/-- State right after the DeviceMetal constructor. -/
def MetalQueueState.init : MetalQueueState :=
  { batchSize := 0, inFlight := 0, hasCommitted := false }

/-- DeviceMetal::commit: no-op on an empty batch; otherwise wait for the previously
committed buffer (if any) to complete, then commit the current buffer, keep its
handle, and reset the batch counter. -/
def metalCommit (s : MetalQueueState) : MetalQueueState :=
  if s.batchSize = 0 then s
  else
    let s1 := if s.hasCommitted then { s with inFlight := 0 } else s
    { s1 with inFlight := s1.inFlight + 1, hasCommitted := true, batchSize := 0 }

/-- DeviceMetal::commitBatchQueue: increment the dispatch counter, committing when it
reaches MAX_CMD_BATCH_SIZE. -/
def metalDispatch (maxBatch : Nat) (s : MetalQueueState) : MetalQueueState :=
  let s1 := { s with batchSize := s.batchSize + 1 }
  if s1.batchSize ≥ maxBatch then metalCommit s1 else s1

/-- DeviceMetal::synchronize: commit, then wait on the committed buffer. -/
def metalSync (s : MetalQueueState) : MetalQueueState :=
  { metalCommit s with inFlight := 0 }

/-- Asynchronous completion of the in-flight command buffer by the GPU. -/
def metalComplete (s : MetalQueueState) : MetalQueueState :=
  { s with inFlight := 0 }

/-- States reachable from construction through op dispatches, commits (explicit or
forced by the working-set check in newBuffer), synchronize and asynchronous buffer
completion. -/
inductive MetalReachable (maxBatch : Nat) : MetalQueueState → Prop where
  | init : MetalReachable maxBatch MetalQueueState.init
  | dispatch {s} : MetalReachable maxBatch s →
      MetalReachable maxBatch (metalDispatch maxBatch s)
  | commit {s} : MetalReachable maxBatch s → MetalReachable maxBatch (metalCommit s)
  | sync {s} : MetalReachable maxBatch s → MetalReachable maxBatch (metalSync s)
  | complete {s} : MetalReachable maxBatch s → MetalReachable maxBatch (metalComplete s)

/-! Concrete scenarios used by the claims (shapes and values from the spec and the
shipped test suite). -/

/-- The empty node store. -/
def emptyGraph : Graph := { nodes := [] }

/-- Leaf x = [1,2,3], shape [1,3], requireGrad. -/
def c1X : Graph × Nat := Tensor.fromData emptyGraph [1, 2, 3] [1, 3] true

/-- Leaf y = [[7,8,9],[10,11,12]], shape [2,3], requireGrad. -/
def c1Y : Graph × Nat := Tensor.fromData c1X.1 [7, 8, 9, 10, 11, 12] [2, 3] true

/-- z = x * y. -/
def c1Mul : Except String (Graph × Nat) := Tensor.mulOp c1Y.1 c1X.2 c1Y.2

/-- Graph holding x, y and z (and the broadcast nodes built by operator*). -/
def c1G : Graph := match c1Mul with | .ok (g, _) => g | .error _ => emptyGraph

/-- Node id of z. -/
def c1Z : Nat := match c1Mul with | .ok (_, z) => z | .error _ => 0

/-- State after z.backward(). -/
def c1Final : Graph × Option String := Tensor.backwardVal c1G c1Z 1

/-- Leaf of the transpose scenarios: x = [1..6], shape [3,2], requireGrad
(the Auto Grad - transpose test). -/
def trX : Graph × Nat := Tensor.fromData emptyGraph [1, 2, 3, 4, 5, 6] [3, 2] true

/-- z = x.transpose(0, 1). -/
def trT : Except String (Graph × Nat) := Tensor.transposeOp trX.1 trX.2 0 1

/-- Graph holding x and the transpose node. -/
def trG : Graph := match trT with | .ok (g, _) => g | .error _ => emptyGraph

/-- Node id of the transpose result. -/
def trZ : Nat := match trT with | .ok (_, z) => z | .error _ => 0

/-- Rank-1 tensor [1,2,3] used as the broadcast_to counterexample source. -/
def c5T : TensorValue := TensorValue.ofDataCopy [1, 2, 3] 3 [3] 0 .kFloat32

/-- Loop body of the broadcast_to success condition as worded by the spec, on
reversed shapes. Once either side is exhausted its dimensions count as 1, so every
remaining pair is compatible. -/
def specBroadcastToCompatGo : List Nat → List Nat → Bool
  | _, [] => true
  | [], _ :: _ => true
  | s :: ss, t :: ts =>
    (s == t || s == 1 || t == 1) && specBroadcastToCompatGo ss ts

/-- Modelled from the spec wording of broadcast_to validation (claim C5): comparing
the two shapes right-aligned, each dimension pair must be equal or ONE side must
be 1, with missing leading dimensions treated as 1. Defined only to compare the
claimed success condition against the code. -/
def specBroadcastToCompat (src tgt : List Nat) : Bool :=
  specBroadcastToCompatGo src.reverse tgt.reverse

/-- Right-aligned dimension access: the k-th dimension counted from the right,
1 when the rank is exceeded. -/
def rdim (l : List Nat) (k : Nat) : Nat := l.reverse.getD k 1

/-- Source tensor for the C5 and C7 witnesses: [1,2,3] with shape [1,3]. -/
def c5W : TensorValue := TensorValue.ofDataCopy [1, 2, 3] 3 [1, 3] 0 .kFloat32

/-- Concrete broadcast of c5W to [2,3]. -/
def c5WR : TensorValue :=
  match c5W.broadcastTo [2, 3] with | .ok r => r | .error _ => c5W

/-- Concrete reshape of c5W to [3,1]. -/
def c7WR : TensorValue :=
  match c5W.reshape [3, 1] with | .ok r => r | .error _ => c5W

/-- Concrete 3x2 tensor for the C6 witness. -/
def c6W : TensorValue := TensorValue.ofDataCopy [1, 2, 3, 4, 5, 6] 6 [3, 2] 0 .kFloat32

/-- Pointwise strict domination of an index vector by a shape (the multi-index is in
bounds), phrased through getD for easy list induction. -/
def DimsLt (idxs s : List Nat) : Prop :=
  idxs.length = s.length ∧ ∀ k, k < s.length → idxs.getD k 0 < s.getD k 0

/-- The index remap performed by the transpose kernel on a canonically strided
tensor of the given shape: unflatten with the source strides, swap the two
dimensions, flatten with the strides of the swapped shape. -/
def transIndexMap (s : List Nat) (d0 d1 : Nat) (i : Nat) : Nat :=
  flattenIndex (swapIdx (unflattenIndex i (computeStrides s)) d0 d1)
    (computeStrides (swapIdx s d0 d1))

deriving instance DecidableEq for Except

/-! Theorems. First the sanity theorems showing the kernel-evaluable rational
operations are exactly the field operations of the rationals, then helper lemmas,
then one theorem per claim. -/

/-- Device arithmetic sanity: qadd is rational addition. -/
theorem qadd_eq (a b : ℚ) : qadd a b = a + b := by
  rw [qadd, Rat.add_def, Rat.normalize_eq_mkRat]

/-- Device arithmetic sanity: qsub is rational subtraction. -/
theorem qsub_eq (a b : ℚ) : qsub a b = a - b := by
  rw [qsub, Rat.sub_def, Rat.normalize_eq_mkRat]

/-- Device arithmetic sanity: qmul is rational multiplication. -/
theorem qmul_eq (a b : ℚ) : qmul a b = a * b := by
  rw [qmul, Rat.mul_def, Rat.normalize_eq_mkRat]

/-- Device arithmetic sanity: qneg is rational negation. -/
theorem qneg_eq (a : ℚ) : qneg a = -a := by
  rw [qneg, Rat.mkRat_eq_divInt, Rat.neg_def]

/-- Device arithmetic sanity: qdiv is rational division. -/
theorem qdiv_eq (a b : ℚ) : qdiv a b = a / b := by
  rw [qdiv, Rat.div_def']

/-- Appending a node and reading it back at the old length. -/
theorem list_getD_append_self {α : Type} (l : List α) (x d : α) :
    (l ++ [x]).getD l.length d = x := by
  induction l with
  | nil => rfl
  | cons a t ih => simp only [List.cons_append, List.length_cons, List.getD_cons_succ, ih]

/-- Reading the id returned by Graph.push yields the pushed node. -/
theorem Graph.get_push (g : Graph) (n : TensorNode) :
    (g.push n).1.get (g.push n).2 = n := by
  simp only [Graph.push, Graph.get]
  exact list_getD_append_self g.nodes n _

/-- C1: With leaf tensors x = [1,2,3] (shape [1,3], require_grad) and
y = [[7,8,9],[10,11,12]] (shape [2,3], require_grad), z = x*y and z.backward()
succeed and yield x.grad = [17,19,21] (the products y*1 summed over the broadcast
axis) and y.grad = [[1,2,3],[1,2,3]]. -/
theorem c1_broadcast_mul_backward :
    c1Final.2 = none
    ∧ Tensor.grad c1Final.1 c1X.2 =
        .ok { dtype := .kFloat32, data := [17, 19, 21], size := 3, shape := [1, 3],
              strides := [3, 1], device := 0 }
    ∧ Tensor.grad c1Final.1 c1Y.2 =
        .ok { dtype := .kFloat32, data := [1, 2, 3, 1, 2, 3], size := 6, shape := [2, 3],
              strides := [3, 1], device := 0 } := by decide

/-- C2 counterexample: the claim that every TensorNode keeps grad shape identical to
its value shape at all times fails on Tensor::transpose, which replaces the value
with the transposed tensor while the preallocated grad keeps the original shape:
for x of shape [3,2], the node of x.transpose(0,1) has value shape [2,3] but grad
shape [3,2]. -/
theorem c2_grad_shape_counterexample :
    trT.isOk = true
    ∧ (trG.get trZ).value.shape = [2, 3]
    ∧ (trG.get trZ).grad.shape = [3, 2]
    ∧ (trG.get trZ).value.shape ≠ (trG.get trZ).grad.shape := by decide

/-- C2 (amended): the grad TensorValue has shape, dtype, device, size and strides
identical to the value TensorValue at TensorNode construction; operations that
afterwards replace the value of the node (transpose, the broadcasting or promoting
binary operators) can leave the stored grad with the earlier shape and dtype. -/
theorem c2_grad_matches_value_at_construction (v : TensorValue) (r : Bool) :
    (TensorNode.ofValue v r).grad.shape = v.shape
    ∧ (TensorNode.ofValue v r).grad.dtype = v.dtype
    ∧ (TensorNode.ofValue v r).grad.device = v.device
    ∧ (TensorNode.ofValue v r).grad.size = v.size
    ∧ (TensorNode.ofValue v r).grad.strides = v.strides := by
  simp [TensorNode.ofValue, TensorValue.allocWith]

/-- C3 counterexample: z = x*y is a non-leaf node (it has a parent), retain_grad was
never set, yet reading .grad() succeeds because the node inherited require_grad from
its operands — the code gates the error only on require_grad and retain_grad, not on
being a leaf. -/
theorem c3_grad_access_counterexample :
    (c1G.get c1Z).a.isSome = true
    ∧ (c1G.get c1Z).retainGrad = false
    ∧ (Tensor.grad c1G c1Z).isOk = true := by decide

/-- C3 (amended): for a tensor produced by operator*, reading .grad() succeeds
exactly when either operand had require_grad set (never because of retain_grad,
which a fresh op result never has), although the result is always a non-leaf. -/
theorem c3_grad_access_amended (g : Graph) (ix iy : Nat) (g2 : Graph) (iz : Nat)
    (h : Tensor.mulOp g ix iy = .ok (g2, iz)) :
    (g2.get iz).a.isSome = true
    ∧ (g2.get iz).retainGrad = false
    ∧ ((Tensor.grad g2 iz).isOk = true ↔
        ((g.get ix).requireGrad || (g.get iy).requireGrad) = true) := by
  simp only [Tensor.mulOp, bind, Except.bind] at h
  repeat' split at h
  all_goals try simp at h
  rw [Prod.ext_iff] at h
  obtain ⟨h1, h2⟩ := h
  simp only [] at h1 h2
  subst h1
  subst h2
  rw [Graph.get_push]
  refine ⟨by simp [TensorNode.ofShape, TensorNode.ofValue],
          by simp [TensorNode.ofShape, TensorNode.ofValue], ?_⟩
  rw [Tensor.grad]
  cases hreq : ((g.get ix).requireGrad || (g.get iy).requireGrad) <;>
    simp [Graph.get_push, TensorNode.ofShape, TensorNode.ofValue, hreq, Except.isOk,
      Except.toBool]

/-- C3 witness: the amended grad-access rule applied to the concrete x*y graph of
the broadcast scenario, where x requires grad. -/
theorem c3_grad_access_amended_witness :
    (c1G.get c1Z).a.isSome = true
    ∧ (c1G.get c1Z).retainGrad = false
    ∧ ((Tensor.grad c1G c1Z).isOk = true ↔
        ((c1Y.1.get c1X.2).requireGrad || (c1Y.1.get c1Y.2).requireGrad) = true) :=
  c3_grad_access_amended c1Y.1 c1X.2 c1Y.2 c1G c1Z (by decide)

/-- C4 counterexample: on the transpose sink of the cited test (x of shape [3,2],
z = x.transpose(0,1), parent grad shape [3,2]), backward with seed shape [2,3] — a
shape that mismatches the parent grad shape — raises no error at all and updates the
leaf grad, refuting the claim that every mismatching seed shape fails. -/
theorem c4_seed_shape_counterexample :
    (trG.get ((trG.get trZ).a.getD 0)).grad.shape = [3, 2]
    ∧ (Tensor.backwardShaped trG trZ 1 [2, 3]).2 = none
    ∧ ((Tensor.backwardShaped trG trZ 1 [2, 3]).1.get trX.2).grad.data
        = [1, 1, 1, 1, 1, 1] := by decide

/-- C4 (amended): backward(seed, seed_shape) fails with the invalid-argument
broadcast error only when the seed propagated along the backward path is
broadcast-incompatible with the grad it accumulates into; on the transpose test
graph the seed shape [3,2] (the parent grad shape itself) fails this way and the
failed call leaves the leaf grad unchanged, while the mismatching but
broadcast-compatible seed shape [2,3] is accepted. -/
theorem c4_seed_shape_amended :
    (Tensor.backwardShaped trG trZ 1 [3, 2]).2
      = some "Shapes are not compatible for broadcasting."
    ∧ ((Tensor.backwardShaped trG trZ 1 [3, 2]).1.get trX.2).grad = (trG.get trX.2).grad
    ∧ (Tensor.backwardShaped trG trZ 1 [2, 3]).2 = none := by decide

/-- C5 counterexample: by the claimed rule a shape [3] tensor would broadcast to
target [1] (right-aligned pair (3,1), one side is 1), but the code only lets the
SOURCE side be 1 and throws. -/
theorem c5_broadcast_to_counterexample :
    specBroadcastToCompat [3] [1] = true
    ∧ c5T.broadcastTo [1] = .error "Target TensorValue shape is not broadcastable." := by
  decide

/-- C10: the default no-argument backward() reads the grad shape through the parent
pointer, so on any parentless node (every leaf built by a constructor such as
tensor, zeros, ones or randn) it dereferences a null pointer; only op-produced
tensors, which have at least one parent, can use it. -/
theorem c10_null_parent_backward (g : Graph) (id : Nat) (v : ℚ) :
    ((g.get id).a = none →
      Tensor.backwardVal g id v = (g, some "null parent dereference in Tensor::backward"))
    ∧ (∀ src shape r,
        ((Tensor.fromData g src shape r).1.get (Tensor.fromData g src shape r).2).a = none) := by
  constructor
  · intro h
    unfold Tensor.backwardVal
    rw [h]
  · intro src shape r
    rw [Tensor.fromData, Graph.get_push]
    rfl

/-- C10 witness: a concrete leaf tensor; its node is parentless and the default
backward() faults on the null parent pointer. -/
theorem c10_null_parent_backward_witness :
    Tensor.backwardVal c1X.1 c1X.2 1 =
      (c1X.1, some "null parent dereference in Tensor::backward") :=
  (c10_null_parent_backward c1X.1 c1X.2 1).1 (by decide)

/-- The copy kernel writes exactly size elements. -/
theorem copyKernel_length (src : List ℚ) (size : Nat) : (copyKernel src size).length = size := by
  simp [copyKernel]

/-- Copying a buffer over its own length is the identity. -/
theorem copyKernel_self (src : List ℚ) : copyKernel src src.length = src := by
  apply List.ext_getElem
  · simp [copyKernel]
  · intro i h1 h2
    simp [copyKernel, List.getD_eq_getElem, List.getElem?_eq_getElem, h2]

/-- C7: reshape succeeds exactly when the product of the new shape equals the
stored element count; the result is a fresh tensor with the new shape, canonical
strides, the same dtype, device, element count and elements; on a count mismatch it
fails with the invalid-argument reshape error without touching the source, and the
Tensor-level reshape succeeds under the same condition. -/
theorem c7_reshape (t : TensorValue) (s : List Nat) :
    ((t.reshape s).isOk = true ↔ s.prod = t.size)
    ∧ (∀ r, t.reshape s = .ok r →
        r.shape = s ∧ r.dtype = t.dtype ∧ r.device = t.device ∧ r.size = t.size
        ∧ r.strides = computeStrides s
        ∧ (t.data.length = t.size → r.data = t.data))
    ∧ (s.prod ≠ t.size → t.reshape s = .error "Reshape error: element count mismatch.")
    ∧ (∀ g id, ((Tensor.reshapeOp g id s).isOk = true ↔ s.prod = (g.get id).value.size)) := by
  refine ⟨?_, ?_, ?_, ?_⟩
  · rw [TensorValue.reshape]
    split
    · next hne => simp [Except.isOk, Except.toBool]; omega
    · next hne => simp [Except.isOk, Except.toBool]; omega
  · intro r hr
    rw [TensorValue.reshape] at hr
    split at hr
    · simp at hr
    · next hne =>
      simp only [Except.ok.injEq] at hr
      subst hr
      refine ⟨rfl, rfl, rfl, rfl, rfl, ?_⟩
      intro hlen
      show copyKernel t.data t.size = t.data
      rw [← hlen, copyKernel_self]
  · intro hne
    rw [TensorValue.reshape]
    split
    · rfl
    · omega
  · intro g id
    rw [Tensor.reshapeOp]
    split
    · next hne => simp [Except.isOk, Except.toBool]; omega
    · next hne => simp [Except.isOk, Except.toBool]; omega

/-- C7 witness: reshaping the [1,3] tensor [1,2,3] to [3,1]. -/
theorem c7_reshape_witness :
    (c5W.reshape [3, 1]).isOk = true
    ∧ c7WR.shape = [3, 1] ∧ c7WR.data = c5W.data :=
  ⟨(c7_reshape c5W [3, 1]).1.mpr (by decide),
   ((c7_reshape c5W [3, 1]).2.1 c7WR (by decide)).1,
   ((c7_reshape c5W [3, 1]).2.1 c7WR (by decide)).2.2.2.2.2 (by decide)⟩

/-- An exhausted source passes the checkBroadcastTo loop for any target. -/
theorem checkBroadcastToGo_nil (ts : List Nat) : checkBroadcastToGo [] ts = true := by
  induction ts with
  | nil => rfl
  | cons t ts ih => simp [checkBroadcastToGo, ih]

/-- The checkBroadcastTo loop accepts exactly when every right-aligned pair has the
source dimension equal to the target dimension or equal to 1. -/
theorem checkBroadcastToGo_iff (ts ss : List Nat) :
    checkBroadcastToGo ss ts = true ↔
      ∀ k, k < ts.length → (ss.getD k 1 = ts.getD k 1 ∨ ss.getD k 1 = 1) := by
  induction ts generalizing ss with
  | nil => simp [checkBroadcastToGo]
  | cons t ts ih =>
    cases ss with
    | nil =>
      simp only [checkBroadcastToGo_nil, true_iff]
      intro k hk
      right
      cases k <;> rfl
    | cons s ss2 =>
      simp only [checkBroadcastToGo, Bool.and_eq_true, Bool.or_eq_true, beq_iff_eq, ih]
      constructor
      · rintro ⟨h0, hrest⟩ k hk
        cases k with
        | zero => simpa using h0
        | succ k2 => simpa using hrest k2 (by simpa using hk)
      · intro hall
        exact ⟨by simpa using hall 0 (by simp),
               fun k hk => by simpa using hall (k + 1) (by simpa using hk)⟩

/-- checkBroadcastTo holds exactly when the source rank does not exceed the target
rank and each right-aligned source dimension matches the target dimension or is 1. -/
theorem checkBroadcastTo_iff (src tgt : List Nat) :
    checkBroadcastTo src tgt = true ↔
      (src.length ≤ tgt.length
        ∧ ∀ k, k < tgt.length → (rdim src k = rdim tgt k ∨ rdim src k = 1)) := by
  rw [checkBroadcastTo]
  split
  · next hgt => simp; omega
  · next hle =>
    rw [checkBroadcastToGo_iff]
    simp only [List.length_reverse, rdim]
    constructor
    · intro h
      exact ⟨by omega, h⟩
    · intro h
      exact h.2

/-- getD distributes over mapping max 1 across a list. -/
theorem getD_map_max_left (l : List Nat) (k : Nat) :
    (l.map fun d => max 1 d).getD k 1 = max 1 (l.getD k 1) := by
  induction l generalizing k with
  | nil => simp
  | cons a t ih =>
    cases k with
    | zero => simp
    | succ k2 => simpa using ih k2

/-- getD distributes over mapping max with 1 on the right across a list. -/
theorem getD_map_max_right (l : List Nat) (k : Nat) :
    (l.map fun d => max d 1).getD k 1 = max (l.getD k 1) 1 := by
  induction l generalizing k with
  | nil => simp
  | cons a t ih =>
    cases k with
    | zero => simp
    | succ k2 => simpa using ih k2

/-- Under the checkBroadcastTo condition, the broadcastShapes loop cannot throw and
produces the right-aligned elementwise max of the two shapes. -/
theorem broadcastShapesGo_of_check (ts ss : List Nat)
    (hlen : ss.length ≤ ts.length) (hok : checkBroadcastToGo ss ts = true) :
    ∃ r, broadcastShapesGo ss ts = .ok r ∧ r.length = ts.length
      ∧ ∀ k, r.getD k 1 = max (ss.getD k 1) (ts.getD k 1) := by
  induction ts generalizing ss with
  | nil =>
    have : ss = [] := List.length_eq_zero.mp (by simpa using hlen)
    subst this
    exact ⟨[], rfl, rfl, fun k => by simp⟩
  | cons t ts ih =>
    cases ss with
    | nil =>
      refine ⟨(t :: ts).map fun d => max 1 d, rfl, by simp, fun k => ?_⟩
      rw [getD_map_max_left]
      cases k <;> simp
    | cons s ss2 =>
      simp only [checkBroadcastToGo, Bool.and_eq_true, Bool.or_eq_true, beq_iff_eq] at hok
      obtain ⟨h0, hrest⟩ := hok
      obtain ⟨r, hr, hrl, hrd⟩ := ih ss2 (by simpa using hlen) hrest
      refine ⟨max s t :: r, ?_, by simpa using hrl, fun k => ?_⟩
      · rw [broadcastShapesGo]
        have hcond : ¬(s ≠ t ∧ s ≠ 1 ∧ t ≠ 1) := by
          rcases h0 with h | h <;> omega
        rw [if_neg hcond, hr]
        rfl
      · cases k with
        | zero => simp
        | succ k2 => simpa using hrd k2

/-- C5 (amended): broadcast_to succeeds exactly when, comparing right-aligned, the
rank of t does not exceed the rank of the target and each dimension pair is equal or
the SOURCE dimension is 1 (a target dimension of 1 under a larger source dimension is
rejected, as is a source of larger rank); on success it returns a fresh contiguous
tensor whose shape is the right-aligned elementwise max of the two shapes. -/
theorem c5_broadcast_to_amended (t : TensorValue) (s : List Nat) :
    ((t.broadcastTo s).isOk = true ↔
      (t.shape.length ≤ s.length
        ∧ ∀ k, k < s.length → (rdim t.shape k = rdim s k ∨ rdim t.shape k = 1)))
    ∧ (∀ r, t.broadcastTo s = .ok r →
        r.strides = computeStrides r.shape ∧ r.size = r.shape.prod
        ∧ r.data.length = r.size ∧ r.shape.length = s.length
        ∧ ∀ k, rdim r.shape k = max (rdim t.shape k) (rdim s k)) := by
  by_cases hchk : checkBroadcastTo t.shape s = true
  · have hiff := (checkBroadcastTo_iff t.shape s).mp hchk
    have hgo : checkBroadcastToGo t.shape.reverse s.reverse = true := by
      rw [checkBroadcastTo, if_neg (by omega)] at hchk
      exact hchk
    obtain ⟨rg, hrg, hrgl, hrgd⟩ :=
      broadcastShapesGo_of_check s.reverse t.shape.reverse (by simpa using hiff.1) hgo
    have hbs : broadcastShapes t.shape s = .ok rg.reverse := by
      rw [broadcastShapes, hrg]
      rfl
    constructor
    · constructor
      · intro _
        exact hiff
      · intro _
        rw [TensorValue.broadcastTo, if_neg (not_not_intro hchk), hbs]
        rfl
    · intro r hr
      rw [TensorValue.broadcastTo, if_neg (not_not_intro hchk), hbs] at hr
      simp only [bind, Except.bind, Except.ok.injEq] at hr
      subst hr
      refine ⟨rfl, rfl, by simp [broadcastToKernel, TensorValue.alloc],
              by simp only [TensorValue.alloc, List.length_reverse]; simpa using hrgl,
              fun k => ?_⟩
      show rdim rg.reverse k = _
      rw [rdim, List.reverse_reverse, hrgd k, rdim, rdim]
  · have herr : t.broadcastTo s
        = .error "Target TensorValue shape is not broadcastable." := by
      rw [TensorValue.broadcastTo, if_pos]
      simpa using hchk
    constructor
    · rw [herr]
      simp only [Except.isOk, Except.toBool]
      constructor
      · intro h
        exact absurd h (by simp)
      · intro h
        exact absurd ((checkBroadcastTo_iff t.shape s).mpr h) hchk
    · intro r hr
      rw [herr] at hr
      exact absurd hr (by simp)

/-- C5 witness: broadcasting the [1,3] tensor [1,2,3] to [2,3]. -/
theorem c5_broadcast_to_amended_witness :
    (c5W.broadcastTo [2, 3]).isOk = true
    ∧ c5WR.strides = computeStrides c5WR.shape
    ∧ c5WR.size = c5WR.shape.prod
    ∧ c5WR.shape.length = 2 :=
  ⟨(c5_broadcast_to_amended c5W [2, 3]).1.mpr (by decide),
   ((c5_broadcast_to_amended c5W [2, 3]).2 c5WR (by decide)).1,
   ((c5_broadcast_to_amended c5W [2, 3]).2 c5WR (by decide)).2.1,
   ((c5_broadcast_to_amended c5W [2, 3]).2 c5WR (by decide)).2.2.2.1⟩

/-- C8: on the accelerator backend no kernel is ever dispatched for dtype F64: every
(op, F64) entry of the pipeline tables (including both sides of the dtype-pair copy
and fill tables) is bound to the null-kernel stub, and every public op invoked with
F64 operands either rejects with an error before encoding a dispatch or synchronizes
and falls back to the CPU implementation. -/
theorem c8_metal_f64_never_dispatched :
    (∀ op : MetalOp, metalKernelTable op .f64 = "nullKernel")
    ∧ (∀ j : MetalDataType,
        metalCopyKernelTable .f64 j = "nullKernel"
        ∧ metalCopyKernelTable j .f64 = "nullKernel"
        ∧ metalFillKernelTable .f64 j = "nullKernel"
        ∧ metalFillKernelTable j .f64 = "nullKernel")
    ∧ (∀ dop : MetalDeviceOp, metalDeviceOpAction dop .f64 ≠ .dispatch) := by
  refine ⟨fun op => by simp [metalKernelTable],
          fun j => ⟨by simp [metalCopyKernelTable], by simp [metalCopyKernelTable],
                    by simp [metalFillKernelTable], by simp [metalFillKernelTable]⟩,
          fun dop => ?_⟩
  cases dop <;> simp [metalDeviceOpAction, metalValidateFails]

/-- metalCommit preserves the single-buffer-in-flight invariant. -/
theorem metalCommit_invariant (s : MetalQueueState)
    (h : s.inFlight ≤ 1 ∧ (s.hasCommitted = false → s.inFlight = 0)) :
    (metalCommit s).inFlight ≤ 1
    ∧ ((metalCommit s).hasCommitted = false → (metalCommit s).inFlight = 0) := by
  rw [metalCommit]
  split
  · exact h
  · cases hc : s.hasCommitted
    · simp [hc]
      exact h.2 hc
    · simp [hc]

/-- Every reachable batch-queue state has at most one command buffer in flight, and
none at all before the first commit. -/
theorem metalReachable_invariant (maxBatch : Nat) (s : MetalQueueState)
    (h : MetalReachable maxBatch s) :
    s.inFlight ≤ 1 ∧ (s.hasCommitted = false → s.inFlight = 0) := by
  induction h with
  | init => simp [MetalQueueState.init]
  | dispatch _ ih =>
    rw [metalDispatch]
    split
    · exact metalCommit_invariant _ ih
    · exact ih
  | commit _ ih => exact metalCommit_invariant _ ih
  | sync _ ih => simp [metalSync]
  | complete _ ih => simp [metalComplete]

/-- C9: every op dispatch increments the batch counter and triggers a commit exactly
when the counter reaches MAX_CMD_BATCH_SIZE; a commit waits on the previously
committed buffer (if any) before committing, so no reachable state has more than one
command buffer in flight, and after any commit the batch counter is zero. -/
theorem c9_batched_commit (maxBatch : Nat) (_hmax : 0 < maxBatch) (s : MetalQueueState)
    (hs : MetalReachable maxBatch s) :
    s.inFlight ≤ 1
    ∧ (metalCommit s).batchSize = 0
    ∧ (metalDispatch maxBatch s).batchSize
        = (if s.batchSize + 1 ≥ maxBatch then 0 else s.batchSize + 1)
    ∧ (s.batchSize + 1 ≥ maxBatch →
        metalDispatch maxBatch s = metalCommit { s with batchSize := s.batchSize + 1 }) := by
  refine ⟨(metalReachable_invariant maxBatch s hs).1, ?_, ?_, ?_⟩
  · rw [metalCommit]
    split
    · next h => exact h
    · cases hc : s.hasCommitted <;> simp [hc]
  · rw [metalDispatch]
    split
    · next h =>
      cases hc : s.hasCommitted <;> simp [metalCommit, hc]
    · next h => rfl
  · intro h
    rw [metalDispatch, if_pos h]

/-- C9 witness: instantiated at MAX_CMD_BATCH_SIZE = 16 and the initial state. -/
theorem c9_batched_commit_witness :
    MetalQueueState.init.inFlight ≤ 1
    ∧ (metalCommit MetalQueueState.init).batchSize = 0
    ∧ (metalDispatch 16 MetalQueueState.init).batchSize
        = (if MetalQueueState.init.batchSize + 1 ≥ 16 then 0
           else MetalQueueState.init.batchSize + 1)
    ∧ (MetalQueueState.init.batchSize + 1 ≥ 16 →
        metalDispatch 16 MetalQueueState.init
          = metalCommit { MetalQueueState.init with
                          batchSize := MetalQueueState.init.batchSize + 1 }) :=
  c9_batched_commit 16 (by decide) MetalQueueState.init MetalReachable.init



/-- Reading back a set position through getD. -/
theorem getD_set_self {α : Type} (l : List α) (n : Nat) (a d : α) (h : n < l.length) :
    (l.set n a).getD n d = a := by
  induction l generalizing n with
  | nil => simp at h
  | cons b t ih =>
    cases n with
    | zero => rfl
    | succ m => simpa using ih m (by simpa using h)

/-- getD at a different position is unaffected by set. -/
theorem getD_set_ne {α : Type} (l : List α) (m n : Nat) (a d : α) (h : m ≠ n) :
    (l.set m a).getD n d = l.getD n d := by
  induction l generalizing m n with
  | nil => simp [List.set]
  | cons b t ih =>
    cases m with
    | zero =>
      cases n with
      | zero => exact absurd rfl h
      | succ n2 => rfl
    | succ m2 =>
      cases n with
      | zero => rfl
      | succ n2 => simpa using ih m2 n2 (by omega)

/-- Writing back the value already stored is the identity. -/
theorem set_getD_self {α : Type} (l : List α) (n : Nat) (d : α) :
    l.set n (l.getD n d) = l := by
  induction l generalizing n with
  | nil => rfl
  | cons b t ih =>
    cases n with
    | zero => rfl
    | succ m => simpa using ih m

/-- List extensionality through getD at matching lengths. -/
theorem list_ext_getD {α : Type} (a b : List α) (d : α) (hl : a.length = b.length)
    (h : ∀ k, k < a.length → a.getD k d = b.getD k d) : a = b := by
  apply List.ext_getElem hl
  intro i h1 h2
  have := h i h1
  rwa [List.getD_eq_getElem a d h1, List.getD_eq_getElem b d h2] at this

/-- swapIdx preserves length. -/
theorem length_swapIdx (l : List Nat) (i j : Nat) : (swapIdx l i j).length = l.length := by
  simp [swapIdx]

/-- Swapping a position with itself is the identity. -/
theorem swapIdx_self (l : List Nat) (i : Nat) : swapIdx l i i = l := by
  rw [swapIdx, List.set_set, set_getD_self]

/-- Entry of a swapped list (both swap positions in bounds). -/
theorem getD_swapIdx (l : List Nat) (i j k : Nat) (hi : i < l.length) (hj : j < l.length) :
    (swapIdx l i j).getD k 0 =
      if k = j then l.getD i 0 else if k = i then l.getD j 0 else l.getD k 0 := by
  rw [swapIdx]
  by_cases hkj : k = j
  · subst hkj
    rw [getD_set_self _ _ _ _ (by simpa using hj), if_pos rfl]
  · rw [getD_set_ne _ _ _ _ _ (fun hh => hkj hh.symm), if_neg hkj]
    by_cases hki : k = i
    · subst hki
      rw [getD_set_self _ _ _ _ hi, if_pos rfl]
    · rw [getD_set_ne _ _ _ _ _ (fun hh => hki hh.symm), if_neg hki]

/-- Swapping the same pair twice is the identity. -/
theorem swapIdx_swapIdx (l : List Nat) (i j : Nat) (hi : i < l.length) (hj : j < l.length) :
    swapIdx (swapIdx l i j) i j = l := by
  apply list_ext_getD _ _ 0 (by simp [length_swapIdx])
  intro k hk
  have hi2 : i < (swapIdx l i j).length := by simpa [length_swapIdx] using hi
  have hj2 : j < (swapIdx l i j).length := by simpa [length_swapIdx] using hj
  rw [getD_swapIdx _ _ _ _ hi2 hj2]
  by_cases hkj : k = j
  · rw [if_pos hkj, getD_swapIdx _ _ _ _ hi hj]
    by_cases hij : i = j
    · rw [if_pos hij, hkj, hij]
    · rw [if_neg hij, if_pos rfl, hkj]
  · rw [if_neg hkj]
    by_cases hki : k = i
    · rw [if_pos hki, getD_swapIdx _ _ _ _ hi hj, if_pos rfl, hki]
    · rw [if_neg hki, getD_swapIdx _ _ _ _ hi hj, if_neg hkj, if_neg hki]



/-- Exchanging an entry against the product: old entry times new product equals new
entry times old product. -/
theorem prod_set_getD (as : List Nat) (j a : Nat) (hj : j < as.length) :
    as.getD j 0 * (as.set j a).prod = a * as.prod := by
  induction as generalizing j with
  | nil => simp at hj
  | cons b bs ih =>
    cases j with
    | zero => simp [List.prod_cons]; ring
    | succ m =>
      have := ih m (by simpa using hj)
      simp only [List.getD_cons_succ, List.set_cons_succ, List.prod_cons]
      calc bs.getD m 0 * (b * (bs.set m a).prod)
          = b * (bs.getD m 0 * (bs.set m a).prod) := by ring
        _ = b * (a * bs.prod) := by rw [this]
        _ = a * (b * bs.prod) := by ring

/-- swapIdx distributes over cons for positive positions. -/
theorem swapIdx_cons_succ (b : Nat) (t : List Nat) (i j : Nat) :
    swapIdx (b :: t) (i + 1) (j + 1) = b :: swapIdx t i j := by
  simp [swapIdx]

/-- swapIdx preserves the product of a shape. -/
theorem prod_swapIdx (l : List Nat) (i j : Nat) (hi : i < l.length) (hj : j < l.length) :
    (swapIdx l i j).prod = l.prod := by
  induction l generalizing i j with
  | nil => simp at hi
  | cons b t ih =>
    cases i with
    | zero =>
      cases j with
      | zero => rw [swapIdx_self]
      | succ m =>
        have hm : m < t.length := by simpa using hj
        show ((( b :: t).set 0 ((b :: t).getD (m + 1) 0)).set (m + 1) ((b :: t).getD 0 0)).prod = _
        simp only [List.getD_cons_succ, List.getD_cons_zero, List.set_cons_zero,
          List.set_cons_succ, List.prod_cons]
        rw [prod_set_getD t m b hm]
    | succ n =>
      cases j with
      | zero =>
        have hn : n < t.length := by simpa using hi
        show ((( b :: t).set (n + 1) ((b :: t).getD 0 0)).set 0 ((b :: t).getD (n + 1) 0)).prod = _
        simp only [List.getD_cons_succ, List.getD_cons_zero, List.set_cons_zero,
          List.set_cons_succ, List.prod_cons]
        rw [prod_set_getD t n b hn]
      | succ m =>
        rw [swapIdx_cons_succ]
        simp only [List.prod_cons]
        rw [ih n m (by simpa using hi) (by simpa using hj)]



/-- Canonical strides have the same length as the shape. -/
theorem length_computeStrides (s : List Nat) : (computeStrides s).length = s.length := by
  induction s with
  | nil => rfl
  | cons d rest ih => simpa [computeStrides] using ih

/-- unflattenIndex produces one digit per stride. -/
theorem length_unflattenIndex (i : Nat) (st : List Nat) :
    (unflattenIndex i st).length = st.length := by
  induction st generalizing i with
  | nil => rfl
  | cons s st2 ih => simpa [unflattenIndex] using ih (i % s)

/-- The empty multi-index is in bounds for the empty shape. -/
theorem dimsLt_nil : DimsLt [] [] := ⟨rfl, fun k hk => by simp at hk⟩

/-- Cons characterization of DimsLt. -/
theorem dimsLt_cons (a d : Nat) (as ds : List Nat) :
    DimsLt (a :: as) (d :: ds) ↔ (a < d ∧ DimsLt as ds) := by
  constructor
  · rintro ⟨hl, hd⟩
    refine ⟨by simpa using hd 0 (by simp), by simpa using hl, fun k hk => ?_⟩
    simpa using hd (k + 1) (by simpa using hk)
  · rintro ⟨h0, hl, hd⟩
    refine ⟨by simpa using hl, fun k hk => ?_⟩
    cases k with
    | zero => simpa using h0
    | succ m => simpa using hd m (by simpa using hk)

/-- DimsLt forces equal lengths. -/
theorem dimsLt_length {idxs s : List Nat} (h : DimsLt idxs s) : idxs.length = s.length := h.1

/-- Flattening an in-bounds multi-index with canonical strides stays below the shape
product. -/
theorem flattenIndex_lt (s : List Nat) : ∀ idxs, DimsLt idxs s →
    flattenIndex idxs (computeStrides s) < s.prod := by
  induction s with
  | nil =>
    intro idxs h
    have : idxs = [] := List.length_eq_zero.mp h.1
    subst this
    simp [flattenIndex]
  | cons d rest ih =>
    intro idxs h
    cases idxs with
    | nil => exact absurd h.1 (by simp)
    | cons a as =>
      rw [dimsLt_cons] at h
      obtain ⟨h0, h2⟩ := h
      have hF := ih as h2
      show a * rest.prod + flattenIndex as (computeStrides rest) < d * rest.prod
      have h3 : a + 1 ≤ d := h0
      have h4 : (a + 1) * rest.prod ≤ d * rest.prod := Nat.mul_le_mul_right _ h3
      have h5 : (a + 1) * rest.prod = a * rest.prod + rest.prod := by ring
      omega

/-- Flattening after unflattening with canonical strides recovers the linear index. -/
theorem flattenIndex_unflattenIndex (s : List Nat) : ∀ i, i < s.prod →
    flattenIndex (unflattenIndex i (computeStrides s)) (computeStrides s) = i := by
  induction s with
  | nil =>
    intro i hi
    simp at hi
    subst hi
    rfl
  | cons d rest ih =>
    intro i hi
    by_cases hp : rest.prod = 0
    · rw [List.prod_cons, hp, Nat.mul_zero] at hi
      omega
    · have hp2 : 0 < rest.prod := Nat.pos_of_ne_zero hp
      show (i / rest.prod) * rest.prod
          + flattenIndex (unflattenIndex (i % rest.prod) (computeStrides rest)) (computeStrides rest)
          = i
      rw [ih (i % rest.prod) (Nat.mod_lt _ hp2), Nat.mul_comm (i / rest.prod) rest.prod]
      exact Nat.div_add_mod i rest.prod

/-- Unflattening a linear index below the shape product gives an in-bounds
multi-index. -/
theorem unflattenIndex_dimsLt (s : List Nat) : ∀ i, i < s.prod →
    DimsLt (unflattenIndex i (computeStrides s)) s := by
  induction s with
  | nil =>
    intro i hi
    exact dimsLt_nil
  | cons d rest ih =>
    intro i hi
    by_cases hp : rest.prod = 0
    · rw [List.prod_cons, hp, Nat.mul_zero] at hi
      omega
    · have hp2 : 0 < rest.prod := Nat.pos_of_ne_zero hp
      show DimsLt (i / rest.prod :: unflattenIndex (i % rest.prod) (computeStrides rest)) (d :: rest)
      rw [dimsLt_cons]
      refine ⟨?_, ih (i % rest.prod) (Nat.mod_lt _ hp2)⟩
      rw [Nat.div_lt_iff_lt_mul hp2]
      rw [List.prod_cons] at hi
      omega

/-- Unflattening after flattening with canonical strides recovers the multi-index. -/
theorem unflattenIndex_flattenIndex (s : List Nat) : ∀ idxs, DimsLt idxs s →
    unflattenIndex (flattenIndex idxs (computeStrides s)) (computeStrides s) = idxs := by
  induction s with
  | nil =>
    intro idxs h
    have : idxs = [] := List.length_eq_zero.mp h.1
    subst this
    rfl
  | cons d rest ih =>
    intro idxs h
    cases idxs with
    | nil => exact absurd h.1 (by simp)
    | cons a as =>
      rw [dimsLt_cons] at h
      obtain ⟨h0, h2⟩ := h
      have hF := flattenIndex_lt rest as h2
      have hp2 : 0 < rest.prod := by omega
      show (a * rest.prod + flattenIndex as (computeStrides rest)) / rest.prod
          :: unflattenIndex ((a * rest.prod + flattenIndex as (computeStrides rest)) % rest.prod)
              (computeStrides rest)
          = a :: as
      have hdiv : (a * rest.prod + flattenIndex as (computeStrides rest)) / rest.prod = a := by
        rw [Nat.mul_comm a rest.prod, Nat.mul_add_div hp2, Nat.div_eq_of_lt hF,
          Nat.add_zero]
      have hmod : (a * rest.prod + flattenIndex as (computeStrides rest)) % rest.prod
          = flattenIndex as (computeStrides rest) := by
        rw [Nat.mul_comm a rest.prod, Nat.mul_add_mod]
        exact Nat.mod_eq_of_lt hF
      rw [hdiv, hmod, ih as h2]



/-- Swapping the same two positions of the index and the shape preserves bounds. -/
theorem dimsLt_swapIdx {idxs s : List Nat} (h : DimsLt idxs s) (i j : Nat)
    (hi : i < s.length) (hj : j < s.length) :
    DimsLt (swapIdx idxs i j) (swapIdx s i j) := by
  obtain ⟨hl, hd⟩ := h
  have hi2 : i < idxs.length := by omega
  have hj2 : j < idxs.length := by omega
  refine ⟨by simp [length_swapIdx, hl], fun k hk => ?_⟩
  rw [length_swapIdx] at hk
  rw [getD_swapIdx _ _ _ _ hi2 hj2, getD_swapIdx _ _ _ _ hi hj]
  by_cases hkj : k = j
  · rw [if_pos hkj, if_pos hkj]
    exact hd i hi
  · rw [if_neg hkj, if_neg hkj]
    by_cases hki : k = i
    · rw [if_pos hki, if_pos hki]
      exact hd j hj
    · rw [if_neg hki, if_neg hki]
      exact hd k hk

/-- The transpose index remap lands below the product of the swapped shape. -/
theorem transIndexMap_lt (s : List Nat) (d0 d1 i : Nat)
    (hd0 : d0 < s.length) (hd1 : d1 < s.length) (hi : i < s.prod) :
    transIndexMap s d0 d1 i < (swapIdx s d0 d1).prod := by
  rw [transIndexMap]
  exact flattenIndex_lt (swapIdx s d0 d1) _
    (dimsLt_swapIdx (unflattenIndex_dimsLt s i hi) d0 d1 hd0 hd1)

/-- The transpose index remap of the swapped shape inverts the remap of the original
shape. -/
theorem transIndexMap_inv (s : List Nat) (d0 d1 i : Nat)
    (hd0 : d0 < s.length) (hd1 : d1 < s.length) (hi : i < s.prod) :
    transIndexMap (swapIdx s d0 d1) d0 d1 (transIndexMap s d0 d1 i) = i := by
  have hu := unflattenIndex_dimsLt s i hi
  have hw := dimsLt_swapIdx hu d0 d1 hd0 hd1
  rw [transIndexMap, transIndexMap]
  rw [swapIdx_swapIdx s d0 d1 hd0 hd1]
  rw [unflattenIndex_flattenIndex (swapIdx s d0 d1) _ hw]
  have hulen : (unflattenIndex i (computeStrides s)).length = s.length := by
    rw [length_unflattenIndex, length_computeStrides]
  rw [swapIdx_swapIdx _ d0 d1 (by omega) (by omega)]
  exact flattenIndex_unflattenIndex s i hi

/-- A fold of set operations preserves the buffer length. -/
theorem scatter_fold_length (L : List Nat) (f : Nat → Nat) (v : Nat → ℚ) (acc0 : List ℚ) :
    (L.foldl (fun acc i => acc.set (f i) (v i)) acc0).length = acc0.length := by
  induction L generalizing acc0 with
  | nil => rfl
  | cons a t ih => simpa using ih (acc0.set (f a) (v a))

/-- Reading one cell of a scatter loop whose index map has a left inverse: the cell
holds the element scattered there, or the initial contents if nothing reached it. -/
theorem scatter_fold_getD (src dst0 : List ℚ) (f g : Nat → Nat) (n : Nat)
    (hgf : ∀ i, i < n → g (f i) = i) (k : Nat) (hk : k < dst0.length) :
    ((List.range n).foldl (fun acc i => acc.set (f i) (src.getD i 0)) dst0).getD k 0
      = if g k < n ∧ f (g k) = k then src.getD (g k) 0 else dst0.getD k 0 := by
  induction n with
  | zero => simp
  | succ m ih =>
    rw [List.range_succ, List.foldl_append]
    simp only [List.foldl_cons, List.foldl_nil]
    have hlen : ((List.range m).foldl (fun acc i => acc.set (f i) (src.getD i 0)) dst0).length
        = dst0.length := scatter_fold_length _ _ _ _
    by_cases hkf : k = f m
    · rw [← hkf]
      rw [getD_set_self _ _ _ _ (by omega)]
      have hg : g k = m := by rw [hkf]; exact hgf m (by omega)
      rw [if_pos ⟨by omega, by rw [hg, ← hkf]⟩, hg]
    · rw [getD_set_ne _ _ _ _ _ (fun hh => hkf hh.symm)]
      rw [ih (fun i hi => hgf i (by omega))]
      by_cases hfg : f (g k) = k
      · have hgkm : g k ≠ m := fun hh => hkf (by rw [← hfg, hh])
        by_cases hlt : g k < m
        · rw [if_pos ⟨hlt, hfg⟩, if_pos ⟨by omega, hfg⟩]
        · rw [if_neg (fun hh => hlt hh.1), if_neg (fun hh => by omega)]
      · rw [if_neg (fun hh => hfg hh.2), if_neg (fun hh => hfg hh.2)]



/-- TensorValue::transpose with in-range dimensions, written out. -/
theorem transpose_spec (t : TensorValue) (d0 d1 : Nat)
    (hd0 : d0 < t.shape.length) (hd1 : d1 < t.shape.length) :
    t.transpose d0 d1 = .ok
      { dtype := t.dtype,
        data := transposeKernel d0 d1 t.data t.strides
          (computeStrides (swapIdx t.shape d0 d1)) ((swapIdx t.shape d0 d1).prod)
          (List.replicate ((swapIdx t.shape d0 d1).prod) 0),
        size := (swapIdx t.shape d0 d1).prod,
        shape := swapIdx t.shape d0 d1,
        strides := computeStrides (swapIdx t.shape d0 d1),
        device := t.device } := by
  rw [TensorValue.transpose, if_neg (by omega)]
  rfl

/-- Gather form of the transpose scatter kernel on a canonically strided source. -/
theorem transposeKernel_getD (s : List Nat) (src : List ℚ) (d0 d1 : Nat)
    (hd0 : d0 < s.length) (hd1 : d1 < s.length) (k : Nat)
    (hk : k < (swapIdx s d0 d1).prod) :
    (transposeKernel d0 d1 src (computeStrides s)
      (computeStrides (swapIdx s d0 d1)) ((swapIdx s d0 d1).prod)
      (List.replicate ((swapIdx s d0 d1).prod) 0)).getD k 0
      = src.getD (transIndexMap (swapIdx s d0 d1) d0 d1 k) 0 := by
  have hsp : (swapIdx s d0 d1).prod = s.prod := prod_swapIdx _ _ _ hd0 hd1
  have hd0s : d0 < (swapIdx s d0 d1).length := by rw [length_swapIdx]; exact hd0
  have hd1s : d1 < (swapIdx s d0 d1).length := by rw [length_swapIdx]; exact hd1
  rw [transposeKernel]
  show ((List.range ((swapIdx s d0 d1).prod)).foldl
      (fun acc i => acc.set (transIndexMap s d0 d1 i) (src.getD i 0))
      (List.replicate ((swapIdx s d0 d1).prod) 0)).getD k 0 = _
  rw [scatter_fold_getD src _ (transIndexMap s d0 d1)
      (transIndexMap (swapIdx s d0 d1) d0 d1) ((swapIdx s d0 d1).prod)
      (fun i hi => transIndexMap_inv s d0 d1 i hd0 hd1 (by omega)) k
      (by simpa using hk)]
  have hglt : transIndexMap (swapIdx s d0 d1) d0 d1 k < (swapIdx s d0 d1).prod := by
    have := transIndexMap_lt (swapIdx s d0 d1) d0 d1 k hd0s hd1s hk
    rwa [swapIdx_swapIdx _ _ _ hd0 hd1, ← hsp] at this
  have hfg : transIndexMap s d0 d1 (transIndexMap (swapIdx s d0 d1) d0 d1 k) = k := by
    have := transIndexMap_inv (swapIdx s d0 d1) d0 d1 k hd0s hd1s hk
    rwa [swapIdx_swapIdx _ _ _ hd0 hd1] at this
  rw [if_pos ⟨hglt, hfg⟩]

/-- The transpose kernel preserves the destination length. -/
theorem transposeKernel_length (d0 d1 : Nat) (src : List ℚ) (strides newStrides : List Nat)
    (size : Nat) (dst0 : List ℚ) :
    (transposeKernel d0 d1 src strides newStrides size dst0).length = dst0.length := by
  rw [transposeKernel]
  exact scatter_fold_length _ _ _ _



/-- C6: for every tensor satisfying the core invariants (canonical strides, size
equal to the shape product, fully populated buffer) and every pair of valid axis
indices, transposing twice along the same pair returns the original tensor: same
shape, strides, dtype, device and element contents. -/
theorem c6_transpose_involution (t : TensorValue) (d0 d1 : Nat)
    (hd0 : d0 < t.shape.length) (hd1 : d1 < t.shape.length)
    (hstr : t.strides = computeStrides t.shape)
    (hsz : t.size = t.shape.prod)
    (hlen : t.data.length = t.size) :
    (do
      let u ← t.transpose d0 d1
      u.transpose d0 d1 : Except String TensorValue) = .ok t := by
  obtain ⟨dt, da, sz, sh, st, dev⟩ := t
  simp only at hd0 hd1 hstr hsz hlen
  rw [transpose_spec _ d0 d1 hd0 hd1]
  simp only [bind, Except.bind]
  have hb0 : d0 < (swapIdx sh d0 d1).length := by rw [length_swapIdx]; exact hd0
  have hb1 : d1 < (swapIdx sh d0 d1).length := by rw [length_swapIdx]; exact hd1
  rw [transpose_spec _ d0 d1 hb0 hb1]
  simp only [Except.ok.injEq]
  have hswap := swapIdx_swapIdx sh d0 d1 hd0 hd1
  have hsp : (swapIdx sh d0 d1).prod = sh.prod := prod_swapIdx _ _ _ hd0 hd1
  refine TensorValue.mk.injEq .. ▸ ⟨rfl, ?_, ?_, ?_, ?_, rfl⟩
  · -- data
    show transposeKernel d0 d1
        (transposeKernel d0 d1 da st (computeStrides (swapIdx sh d0 d1))
          ((swapIdx sh d0 d1).prod) (List.replicate ((swapIdx sh d0 d1).prod) 0))
        (computeStrides (swapIdx sh d0 d1))
        (computeStrides (swapIdx (swapIdx sh d0 d1) d0 d1))
        ((swapIdx (swapIdx sh d0 d1) d0 d1).prod)
        (List.replicate ((swapIdx (swapIdx sh d0 d1) d0 d1).prod) 0) = da
    rw [hstr]
    apply list_ext_getD _ _ 0
    · rw [transposeKernel_length, List.length_replicate, hswap, hlen, hsz]
    · intro k hk
      rw [transposeKernel_length, List.length_replicate, hswap] at hk
      have hk2 : k < (swapIdx (swapIdx sh d0 d1) d0 d1).prod := by rw [hswap]; exact hk
      rw [transposeKernel_getD (swapIdx sh d0 d1)
          (transposeKernel d0 d1 da (computeStrides sh) (computeStrides (swapIdx sh d0 d1))
            ((swapIdx sh d0 d1).prod) (List.replicate ((swapIdx sh d0 d1).prod) 0))
          d0 d1 hb0 hb1 k hk2]
      have hj : transIndexMap (swapIdx (swapIdx sh d0 d1) d0 d1) d0 d1 k
          = transIndexMap sh d0 d1 k := by rw [hswap]
      rw [hj]
      have hjlt : transIndexMap sh d0 d1 k < (swapIdx sh d0 d1).prod :=
        transIndexMap_lt sh d0 d1 k hd0 hd1 hk
      rw [transposeKernel_getD sh da d0 d1 hd0 hd1 _ hjlt]
      rw [transIndexMap_inv sh d0 d1 k hd0 hd1 hk]
  · -- size
    show (swapIdx (swapIdx sh d0 d1) d0 d1).prod = sz
    rw [hswap, ← hsz]
  · -- shape
    show swapIdx (swapIdx sh d0 d1) d0 d1 = sh
    exact hswap
  · -- strides
    show computeStrides (swapIdx (swapIdx sh d0 d1) d0 d1) = st
    rw [hswap, ← hstr]



/-- C6 witness: the 3x2 tensor [1..6] transposed twice along (0,1). -/
theorem c6_transpose_involution_witness :
    (do
      let u ← c6W.transpose 0 1
      u.transpose 0 1 : Except String TensorValue) = .ok c6W :=
  c6_transpose_involution c6W 0 1 (by decide) (by decide) (by decide) (by decide) (by decide)


end AIX
